import Mathlib

set_option maxRecDepth 8192

namespace VTutor

/-! Shallow embedding of the v_tutor exam generation / caching / streaming
pipeline (src/server/app): the SSE connection manager, the semantic question
cache, the question-type selector post-processing, and the exam routes'
background generation, deletion and regeneration logic. -/

/-! ## SSE connection manager (src/server/app/services/sse_manager.py)

`SSEConnectionManager.active_connections` is a Python dict mapping an exam id
to a list of `asyncio.Queue` objects.  A queue is modelled as a numeric
identity `qid` (standing for the object identity of the `asyncio.Queue`)
together with the list of messages enqueued on it, and the dict as an
insertion-ordered association list, which is exactly how a Python dict
behaves (lookup by key, insertion appends, deletion removes the entry). -/

abbrev Subject := String

/-- An event payload, opaque for the model. -/
abbrev Msg := String

/-- One subscriber queue: identity plus enqueued messages. -/
structure QueueState where
  qid : Nat
  msgs : List Msg
deriving DecidableEq, Repr

abbrev Registry := List (Subject × List QueueState)

/-- `SSEConnectionManager.connect`: ensure the subject has an entry, then
append a fresh (empty) queue with identity `q` to it and hand that queue
back to the caller. -/
def connect (st : Registry) (s : Subject) (q : Nat) : Registry :=
  if st.any (fun e => e.1 == s) then
    st.map (fun e => if e.1 == s then (e.1, e.2 ++ [⟨q, []⟩]) else e)
  else
    st ++ [(s, [⟨q, []⟩])]

/-- `list.remove(queue)` preceded by the `queue in list` membership guard:
remove the first queue with the given identity, if any. -/
def eraseQueue : List QueueState → Nat → List QueueState
  | [], _ => []
  | x :: xs, q => if x.qid == q then xs else eraseQueue xs q |>.cons x

/-- `SSEConnectionManager.disconnect`: if the subject is registered, remove
the queue from its list (when present) and drop the subject entry entirely
when its list becomes empty. -/
def disconnect (st : Registry) (s : Subject) (q : Nat) : Registry :=
  if st.any (fun e => e.1 == s) then
    (st.map (fun e => if e.1 == s then (e.1, eraseQueue e.2 q) else e)).filter
      (fun e => !(e.1 == s && e.2.isEmpty))
  else st

/-- `SSEConnectionManager.broadcast`: if the subject is registered, `put` the
message on every queue currently registered for it; otherwise do nothing. -/
def broadcast (st : Registry) (s : Subject) (m : Msg) : Registry :=
  st.map (fun e =>
    if e.1 == s then (e.1, e.2.map (fun q => ⟨q.qid, q.msgs ++ [m]⟩)) else e)

/-- The queues currently registered for a subject (dict lookup, `[]` when the
subject is absent). -/
def queuesOf (st : Registry) (s : Subject) : List QueueState :=
  ((st.find? (fun e => e.1 == s)).map Prod.snd).getD []

/-- Registry well-formedness maintained by the manager: every registered
subject maps to a non-empty list of queues. -/
def RegistryWF (st : Registry) : Prop := ∀ p ∈ st, p.2 ≠ []

/-- The three operations of the SSE connection manager. -/
inductive SSEOp where
  | connect (s : Subject) (q : Nat)
  | disconnect (s : Subject) (q : Nat)
  | broadcast (s : Subject) (m : Msg)

/-- Interpret one manager operation on the registry. -/
def applyOp (st : Registry) : SSEOp → Registry
  | .connect s q => connect st s q
  | .disconnect s q => disconnect st s q
  | .broadcast s m => broadcast st s m

/-- Run a sequence of manager operations starting from the empty registry
(the state `SSEConnectionManager.__init__` creates). -/
def runOps (ops : List SSEOp) : Registry := ops.foldl applyOp []

lemma eraseQueue_eq_self (l : List QueueState) (q : Nat)
    (h : ∀ x ∈ l, x.qid ≠ q) : eraseQueue l q = l := by
  induction l with
  | nil => rfl
  | cons x xs ih =>
    have hx : ¬(x.qid == q) = true := by
      simp only [beq_iff_eq]
      exact h x (List.mem_cons_self x xs)
    simp only [eraseQueue, if_neg hx, List.cons.injEq, true_and]
    exact ih (fun y hy => h y (List.mem_cons_of_mem x hy))

lemma registryWF_connect (st : Registry) (s : Subject) (q : Nat)
    (h : RegistryWF st) : RegistryWF (connect st s q) := by
  unfold connect
  split
  · intro p hp
    rcases List.mem_map.mp hp with ⟨e, he, hpe⟩
    subst hpe
    split
    · simp
    · exact h e he
  · intro p hp
    rcases List.mem_append.mp hp with he | he
    · exact h p he
    · rcases List.mem_singleton.mp he with rfl
      simp

lemma registryWF_disconnect (st : Registry) (s : Subject) (q : Nat)
    (h : RegistryWF st) : RegistryWF (disconnect st s q) := by
  unfold disconnect
  split
  · intro p hp
    have hp2 := List.of_mem_filter hp
    have hp1 := List.mem_of_mem_filter hp
    rcases List.mem_map.mp hp1 with ⟨e, he, hpe⟩
    subst hpe
    split
    · next hk =>
      rw [if_pos hk] at hp2
      intro hnil
      simp only at hnil
      rw [hnil] at hp2
      simp [hk] at hp2
    · exact h e he
  · exact h

lemma registryWF_broadcast (st : Registry) (s : Subject) (m : Msg)
    (h : RegistryWF st) : RegistryWF (broadcast st s m) := by
  unfold broadcast
  intro p hp
  rcases List.mem_map.mp hp with ⟨e, he, hpe⟩
  subst hpe
  split
  · simpa using h e he
  · exact h e he

lemma registryWF_applyOp (st : Registry) (op : SSEOp)
    (h : RegistryWF st) : RegistryWF (applyOp st op) := by
  cases op with
  | connect s q => exact registryWF_connect st s q h
  | disconnect s q => exact registryWF_disconnect st s q h
  | broadcast s m => exact registryWF_broadcast st s m h

lemma registryWF_foldl (ops : List SSEOp) (st : Registry)
    (h : RegistryWF st) : RegistryWF (ops.foldl applyOp st) := by
  induction ops generalizing st with
  | nil => exact h
  | cons op ops ih => exact ih (applyOp st op) (registryWF_applyOp st op h)

/-- C8: `publish(subject, event)` enqueues the event on every queue currently
registered for that subject; queues registered for any other subject are
untouched; and when the subject has zero registered subscribers the publish
call leaves the registry exactly as it was (the event is silently dropped). -/
theorem claim_C8_publish_fanout (st : Registry) (s : Subject) (m : Msg) :
    queuesOf (broadcast st s m) s
        = (queuesOf st s).map (fun q => ⟨q.qid, q.msgs ++ [m]⟩) ∧
    (∀ s2, s2 ≠ s → queuesOf (broadcast st s m) s2 = queuesOf st s2) ∧
    ((∀ p ∈ st, p.1 = s → p.2 = []) → broadcast st s m = st) := by
  refine ⟨?_, ?_, ?_⟩
  · unfold queuesOf broadcast
    rw [List.find?_map]
    have hcomp : ((fun (e : Subject × List QueueState) => e.1 == s) ∘
        (fun (e : Subject × List QueueState) => if e.1 == s
          then (e.1, e.2.map (fun q => ⟨q.qid, q.msgs ++ [m]⟩)) else e))
        = fun (e : Subject × List QueueState) => e.1 == s := by
      funext e
      by_cases hk : (e.1 == s) = true
      · simp [Function.comp, hk]
      · simp [Function.comp, hk]
    rw [hcomp]
    cases hfind : st.find? (fun e => e.1 == s) with
    | none => simp
    | some e =>
      have hkey : e.1 = s := by
        have h := List.find?_some hfind
        simpa using h
      simp [hkey]
  · intro s2 hne
    unfold queuesOf broadcast
    rw [List.find?_map]
    have hcomp : ((fun (e : Subject × List QueueState) => e.1 == s2) ∘
        (fun (e : Subject × List QueueState) => if e.1 == s
          then (e.1, e.2.map (fun q => ⟨q.qid, q.msgs ++ [m]⟩)) else e))
        = fun (e : Subject × List QueueState) => e.1 == s2 := by
      funext e
      by_cases hk : (e.1 == s) = true
      · simp [Function.comp, hk]
      · simp [Function.comp, hk]
    rw [hcomp]
    cases hfind : st.find? (fun e => e.1 == s2) with
    | none => simp
    | some e =>
      have hkey : e.1 = s2 := by
        have h := List.find?_some hfind
        simpa using h
      have hne2 : e.1 ≠ s := by
        rw [hkey]
        exact hne
      simp [hne2]
  · intro hempty
    unfold broadcast
    have hid : ∀ e ∈ st,
        (if e.1 == s
          then (e.1, e.2.map (fun q : QueueState => ⟨q.qid, q.msgs ++ [m]⟩))
          else e) = e := by
      rintro ⟨e1, e2⟩ he
      by_cases hk : (e1 == s) = true
      · have h2 : e2 = [] := hempty ⟨e1, e2⟩ he (by simpa using hk)
        subst h2
        simp [hk]
      · simp [hk]
    rw [List.map_congr_left hid]
    simp

/-- Witness for C8 at concrete inputs. -/
theorem claim_C8_publish_fanout_witness :
    queuesOf (broadcast [("a", [⟨0, []⟩]), ("b", [⟨1, []⟩])] "a" "m") "b"
        = queuesOf [("a", [⟨0, []⟩]), ("b", [⟨1, []⟩])] "b" ∧
    broadcast ([] : Registry) "a" "m" = [] := by
  constructor
  · exact (claim_C8_publish_fanout [("a", [⟨0, []⟩]), ("b", [⟨1, []⟩])]
      "a" "m").2.1 "b" (by decide)
  · exact (claim_C8_publish_fanout [] "a" "m").2.2 (by simp)

/-- C10: after any sequence of connect / disconnect / broadcast operations
starting from the empty registry, every subject present in
`active_connections` maps to a non-empty list of queues; and, on a
well-formed registry, `disconnect` called with a subject or queue identity
that is not registered leaves the registry unchanged. -/
theorem claim_C10_registry_invariant :
    (∀ ops : List SSEOp, RegistryWF (runOps ops)) ∧
    (∀ (st : Registry) (s : Subject) (q : Nat), RegistryWF st →
      (∀ p ∈ st, p.1 = s → ∀ qs ∈ p.2, qs.qid ≠ q) →
      disconnect st s q = st) := by
  constructor
  · intro ops
    exact registryWF_foldl ops [] (by intro p hp; cases hp)
  · intro st s q hwf hmiss
    unfold disconnect
    split
    · have hmap : st.map
          (fun e => if e.1 == s then (e.1, eraseQueue e.2 q) else e) = st := by
        have hid : ∀ e ∈ st,
            (if e.1 == s then (e.1, eraseQueue e.2 q) else e) = e := by
          rintro ⟨e1, e2⟩ he
          by_cases hk : (e1 == s) = true
          · have herase : eraseQueue e2 q = e2 :=
              eraseQueue_eq_self e2 q (hmiss ⟨e1, e2⟩ he (by simpa using hk))
            simp [hk, herase]
          · simp [hk]
        rw [List.map_congr_left hid]
        simp
      rw [hmap]
      have : ∀ e ∈ st, (!(e.1 == s && e.2.isEmpty)) = true := by
        intro e he
        by_cases hk : (e.1 == s) = true
        · have : e.2 ≠ [] := hwf e he
          simp [hk, List.isEmpty_iff, this]
        · simp [hk]
      exact List.filter_eq_self.mpr this
    · rfl

/-- Witness for C10 at concrete inputs. -/
theorem claim_C10_registry_invariant_witness :
    disconnect [("a", [⟨0, []⟩])] "a" 1 = [("a", [⟨0, []⟩])] :=
  claim_C10_registry_invariant.2 [("a", [⟨0, []⟩])] "a" 1
    (by unfold RegistryWF; decide) (by decide)

/-! ## Semantic question cache (src/server/app/services/semantic_cache.py)

A question dict is hashed by `md5(json.dumps(dict, ensure_ascii=False,
sort_keys=True))`.  `json.dumps` with sorted keys is injective on dicts and
the md5 digest is treated as collision-free, so a content hash is modelled
by the dict itself.  Likewise the context hash is
`sha256(context_key)` with sha256 treated as collision-free, so it is
modelled by the context-key string itself. -/

/-- A question dict: `qid` is the value of the `id` key when the dict has
one (`none` when the `id` key was stripped before caching), `qtype` the
value of the `type` key, and `content` stands for the canonical
serialization of all remaining fields. -/
structure QDict where
  qid : Option Nat
  qtype : String
  content : String
deriving DecidableEq, Repr

/-- One row of the `question_cache` table: context hash, question dict
(standing for both `question_hash` and `question_json`), and the
`question_type` column. -/
abbrev CacheRow := String × QDict × String

abbrev QuestionCache := List CacheRow

/-- `SimpleCache.add_question` (reached through `add_cached_question`):
`INSERT OR IGNORE` under the `UNIQUE(context_hash, question_hash)`
constraint — a no-op when a row with the same context and content hash
exists, an append otherwise. -/
def add_question (cache : QuestionCache) (ctx : String) (q : QDict)
    (qt : String) : QuestionCache :=
  if cache.any (fun r => r.1 == ctx && r.2.1 == q) then cache
  else cache ++ [(ctx, q, qt)]

/-- `SimpleCache.remove_question` (reached through
`remove_cached_question`): read the `question_type` of the first matching
row (if any), then delete every row with the same (context, content hash);
returns the new table and the type read (None when no row matched). -/
def remove_question (cache : QuestionCache) (ctx : String) (q : QDict) :
    QuestionCache × Option String :=
  (cache.filter (fun r => !(r.1 == ctx && r.2.1 == q)),
   (cache.find? (fun r => r.1 == ctx && r.2.1 == q)).map (fun r => r.2.2))

/-- `SimpleCache.get_questions` (reached through `get_cached_questions`):
all rows for a context, each dict paired with its `question_type` column
(the `_cached_type` annotation the wrapper adds). -/
def get_questions (cache : QuestionCache) (ctx : String) :
    List (QDict × String) :=
  (cache.filter (fun r => r.1 == ctx)).map (fun r => (r.2.1, r.2.2))

/-- Uniqueness invariant of the `question_cache` table: no two rows share
the (context hash, content hash) pair. -/
def CacheUnique (cache : QuestionCache) : Prop :=
  cache.Pairwise (fun a b => ¬(a.1 = b.1 ∧ a.2.1 = b.2.1))

lemma add_question_idem (cache : QuestionCache) (ctx : String) (q : QDict)
    (qt qt2 : String) :
    add_question (add_question cache ctx q qt) ctx q qt2
      = add_question cache ctx q qt := by
  by_cases h : (cache.any (fun r => r.1 == ctx && r.2.1 == q)) = true <;>
    simp [add_question, h]

/-- C6 counterexample: under one fingerprint, two puts of items that are
content-equal once the identity field is stripped but carry different `id`
values leave two rows, not one — `add_question` hashes the full dict,
identity fields included. -/
theorem claim_C6_counterexample :
    (add_question
        (add_question [] "ctx" ⟨some 1, "single_choice", "c"⟩ "single_choice")
        "ctx" ⟨some 2, "single_choice", "c"⟩ "single_choice").length = 2 ∧
    ¬(add_question
        (add_question [] "ctx" ⟨some 1, "single_choice", "c"⟩ "single_choice")
        "ctx" ⟨some 2, "single_choice", "c"⟩ "single_choice").length = 1 ∧
    (⟨some 1, "single_choice", "c"⟩ : QDict).content
      = (⟨some 2, "single_choice", "c"⟩ : QDict).content ∧
    (⟨some 1, "single_choice", "c"⟩ : QDict).qid
      ≠ (⟨some 2, "single_choice", "c"⟩ : QDict).qid := by
  refine ⟨by decide, by decide, rfl, by decide⟩

/-- C6 amended: put is idempotent for byte-identical dicts: calling put
twice with the same fingerprint and the very same dict leaves exactly one
matching row (the second insertion is a no-op on the (fingerprint, content
hash) conflict); dicts that are equal only after stripping identity fields
are hashed as distinct. -/
theorem claim_C6_amended (cache : QuestionCache) (ctx : String) (q : QDict)
    (qt qt2 : String)
    (h : ∀ r ∈ cache, ¬(r.1 = ctx ∧ r.2.1 = q)) :
    ((add_question (add_question cache ctx q qt) ctx q qt2).filter
        (fun r => r.1 == ctx && r.2.1 == q)).length = 1 ∧
    add_question (add_question cache ctx q qt) ctx q qt2
      = add_question cache ctx q qt := by
  refine ⟨?_, add_question_idem cache ctx q qt qt2⟩
  rw [add_question_idem cache ctx q qt qt2]
  have hany : ¬(cache.any (fun r => r.1 == ctx && r.2.1 == q)) = true := by
    intro hc
    rcases List.any_eq_true.mp hc with ⟨r, hr, hmatch⟩
    simp only [Bool.and_eq_true, beq_iff_eq] at hmatch
    exact h r hr hmatch
  unfold add_question
  rw [if_neg hany, List.filter_append]
  have hnone : cache.filter (fun r => r.1 == ctx && r.2.1 == q) = [] := by
    rw [List.filter_eq_nil_iff]
    intro r hr
    simp only [Bool.and_eq_true, beq_iff_eq, not_and]
    intro h1 h2
    exact h r hr ⟨h1, h2⟩
  rw [hnone, List.nil_append]
  simp [List.filter_cons]

/-- Witness for C6 amended at concrete inputs. -/
theorem claim_C6_amended_witness :
    ((add_question
        (add_question [] "ctx" ⟨some 0, "single_choice", "c"⟩ "single_choice")
        "ctx" ⟨some 0, "single_choice", "c"⟩ "single_choice").filter
        (fun r => r.1 == "ctx" && r.2.1 == ⟨some 0, "single_choice", "c"⟩)).length = 1 ∧
    add_question
        (add_question [] "ctx" ⟨some 0, "single_choice", "c"⟩ "single_choice")
        "ctx" ⟨some 0, "single_choice", "c"⟩ "single_choice"
      = add_question [] "ctx" ⟨some 0, "single_choice", "c"⟩ "single_choice" :=
  claim_C6_amended [] "ctx" ⟨some 0, "single_choice", "c"⟩
    "single_choice" "single_choice" (by simp)

/-! ## Generation context keys (src/server/app/routes/exam.py)

`create_exam` builds `files_hash_str` and `combined_context_text` from the
session files and schedules `generate_exam_background`, which concatenates
the bulk context key; `regenerate_question_async` and `delete_question`
concatenate their own context key in a different format.  The float
`temperature` enters both keys through Python string interpolation, so it is
modelled as its already-formatted decimal string. -/

/-- The hard-coded `global_style` block in `create_exam`. -/
def global_style : String :=
  "\n[STYLE INSTRUCTIONS]\n- Use specific emoji where appropriate.\n- Keep tone friendly and engaging.\n- NO copy-pasting from files (if any), create original similar content.\n"

/-- `files_hash_str = "_".join(file_hashes)` in `create_exam`. -/
def files_hash_str (file_hashes : List String) : String :=
  String.intercalate "_" file_hashes

/-- `final_generator_prompt` in `generate_exam_background`. -/
def final_generator_prompt (user_prompt combined_context style : String) :
    String :=
  user_prompt ++ "\n" ++ combined_context ++ "\n" ++ style

/-- `full_context_key` in `generate_exam_background` (the key the bulk
pipeline caches under). -/
def bulk_context_key
    (user_prompt combined_context style files_hash temperature : String) :
    String :=
  final_generator_prompt user_prompt combined_context style
    ++ "\n---\n" ++ files_hash ++ "\n---\ntemp:" ++ temperature

/-- `full_context_key` in `regenerate_question_async` and
`delete_question` (the key the deletion path removes under). -/
def delete_context_key
    (prompt files_hash temperature system_prompt : String) : String :=
  prompt ++ "_" ++ files_hash ++ "_" ++ temperature ++ "_" ++ system_prompt

/-- A generation context as the bulk pipeline assembles it. -/
structure GenerationContext where
  prompt : String
  combinedContext : String
  auxDigests : List String
  temperature : String
  style : String
deriving DecidableEq, Repr

/-- Fingerprint of a generation context: sha256 of the bulk context key;
sha256 is treated as collision-free, so the digest is modelled by the key
string itself. -/
def fingerprint (c : GenerationContext) : String :=
  bulk_context_key c.prompt c.combinedContext c.style
    (files_hash_str c.auxDigests) c.temperature

/-- C5 counterexample: two contexts that differ in the prompt — a trailing
newline of the prompt moved into the style directives — share the same
fingerprint: the bare string concatenation of the key admits field-boundary
collisions, so a whitespace difference in the prompt does not always change
the fingerprint. -/
theorem claim_C5_counterexample :
    fingerprint ⟨"a\n", "", [], "0.7", "s"⟩
      = fingerprint ⟨"a", "", [], "0.7", "\ns"⟩ ∧
    (⟨"a\n", "", [], "0.7", "s"⟩ : GenerationContext)
      ≠ ⟨"a", "", [], "0.7", "\ns"⟩ ∧
    ("a\n" : String) ≠ "a" := by
  refine ⟨by decide, by decide, by decide⟩

/-- C5 amended: the fingerprint is a pure deterministic function — contexts
that are field-wise equal in prompt, context text, auxiliary digests,
temperature and style directives map to the same fingerprint; contexts that
differ in a field usually differ, but the unescaped concatenation makes
distinctness not guaranteed at field boundaries. -/
theorem claim_C5_amended (c1 c2 : GenerationContext)
    (hp : c1.prompt = c2.prompt)
    (hc : c1.combinedContext = c2.combinedContext)
    (ha : c1.auxDigests = c2.auxDigests)
    (ht : c1.temperature = c2.temperature)
    (hs : c1.style = c2.style) :
    fingerprint c1 = fingerprint c2 := by
  unfold fingerprint bulk_context_key final_generator_prompt
  rw [hp, hc, ha, ht, hs]

/-- Witness for C5 amended: two syntactically different but field-wise
equal contexts. -/
theorem claim_C5_amended_witness :
    fingerprint ⟨"ab", "c", ["h1", "h2"], "0.7", "s"⟩
      = fingerprint ⟨"a" ++ "b", "c", ["h1", "h2"], "0." ++ "7", "s"⟩ :=
  claim_C5_amended _ _ (by decide) rfl rfl (by decide) rfl

/-! ## Exam records and the background pipeline
(src/server/app/routes/exam.py)

An entry of `exams_db` as `create_exam` stores it, restricted to the fields
the generation, deletion and regeneration paths read.  `create_exam` never
stores `files_hash` or `system_prompt` keys, so
`exam.get("files_hash", "")` and `exam.get("system_prompt", "")` in
`delete_question` always yield `""`; the model records this by the absence
of such fields. -/

structure ExamRec where
  examPrompt : String
  temperature : String
  questions : List QDict
  targetCount : Nat
  status : String
deriving DecidableEq, Repr

/-- `create_exam`: register an empty exam with `status = "generating"` and
the requested target count, then schedule `generate_exam_background`. -/
def create_exam (prompt temperature : String) (target_count : Nat) :
    ExamRec :=
  ⟨prompt, temperature, [], target_count, "generating"⟩

/-- `process_generated_question_async` (exam present in `exams_db`): build
`q_cleaned` from the source dict (its content fields projected, `type` set
to the `qt` parameter), assign `id = len(questions) + 1`, append, and
broadcast a `new_question` event carrying the appended item; the log
records the broadcast payloads. -/
def process_generated_question (e : ExamRec) (log : List QDict) (q : QDict)
    (qt : String) : ExamRec × List QDict :=
  let item : QDict := ⟨some (e.questions.length + 1), qt, q.content⟩
  ({e with questions := e.questions ++ [item]}, log ++ [item])

/-- One successful generation result, in completion order: the dict
produced by `res.model_dump()` (carrying `id = 0`, since every generator is
invoked with `question_id=0`) with `q_dict["type"] = qt` already set, and
the kind `qt` it was generated as. -/
structure GenResult where
  content : String
  kind : String
deriving DecidableEq, Repr

/-- State threaded through `generate_exam_background`: the exam being
built, the question cache, and the log of broadcast items. -/
structure BGState where
  exam : ExamRec
  cache : QuestionCache
  log : List QDict
deriving Repr

/-- Body of the `asyncio.as_completed` loop in `generate_exam_background`
for one successful result: add the dict to the cache (`INSERT OR IGNORE`),
then process and broadcast it — there is no check of the result against
the items already in the exam. -/
def process_result (key : String) (st : BGState) (r : GenResult) :
    BGState :=
  let q : QDict := ⟨some 0, r.kind, r.content⟩
  let cache2 := add_question st.cache key q r.kind
  let p := process_generated_question st.exam st.log q r.kind
  ⟨p.1, cache2, p.2⟩

/-- The whole `as_completed` loop over the successful generation results in
completion order (tasks that returned `None` or raised are absent). -/
def process_results (key : String) (st : BGState) (rs : List GenResult) :
    BGState :=
  rs.foldl (process_result key) st

/-- The `cached_by_type` grouping loop: bucket cached dicts by their `type`
field, preserving first-seen key order (a Python dict of lists). -/
def insert_by_type (bt : List (String × List QDict)) (q : QDict) :
    List (String × List QDict) :=
  if bt.any (fun p => p.1 == q.qtype) then
    bt.map (fun p => if p.1 == q.qtype then (p.1, p.2 ++ [q]) else p)
  else bt ++ [(q.qtype, [q])]

def group_by_type (qs : List QDict) : List (String × List QDict) :=
  qs.foldl insert_by_type []

/-- Bucket lookup, `[]` when the kind has no bucket. -/
def bucket_of (bt : List (String × List QDict)) (t : String) : List QDict :=
  ((bt.find? (fun p => p.1 == t)).map Prod.snd).getD []

def set_bucket (bt : List (String × List QDict)) (t : String)
    (l : List QDict) : List (String × List QDict) :=
  bt.map (fun p => if p.1 == t then (p.1, l) else p)

/-- State of the per-kind processing loop (step 4 of
`generate_exam_background`): remaining buckets, the exam and broadcast log,
the kinds queued for generation, and the oracle feeding
`random.randint(0, len - 1)` (each draw is taken modulo the bucket size,
which ranges over exactly the indices `randint` can produce). -/
structure HitState where
  byType : List (String × List QDict)
  exam : ExamRec
  log : List QDict
  pending : List String
  rnds : List Nat
deriving Repr

/-- One iteration of the per-kind loop: on a cache hit pop a random pooled
dict of that kind and process it immediately; otherwise queue a generation
task for the kind. -/
def hit_step (s : HitState) (qt : String) : HitState :=
  let avail := bucket_of s.byType qt
  if avail.isEmpty then { s with pending := s.pending ++ [qt] }
  else
    let i := s.rnds.headD 0 % avail.length
    let q := avail.getD i ⟨none, "", ""⟩
    let p := process_generated_question s.exam s.log q qt
    { byType := set_bucket s.byType qt (avail.eraseIdx i)
      exam := p.1
      log := p.2
      pending := s.pending
      rnds := s.rnds.tail }

/-- `generate_exam_background` after the `select_question_types` call
returned `selected`: compute the bulk context key, pool the cached
questions for it and group them by kind, walk the selected kinds consuming
pooled items or queueing generation tasks, then process the successful
generation results in completion order.  The function contains no retry
round and never writes `exam["status"]`. -/
def generate_exam_background (e : ExamRec) (cache : QuestionCache)
    (user_prompt combined_context files_hash temperature style : String)
    (selected : List String) (rnds : List Nat)
    (successes : List GenResult) : BGState :=
  let key := bulk_context_key user_prompt combined_context style
    files_hash temperature
  let pooled := (get_questions cache key).map Prod.fst
  let s1 := selected.foldl hit_step ⟨group_by_type pooled, e, [], [], rnds⟩
  process_results key ⟨s1.exam, cache, s1.log⟩ successes

/-- `max([q["id"] for q in questions]) + 1 if questions else 1` equals
`maxQId qs + 1`: exam items always carry an id (`getD 0` is the harmless
default for the Option), and the fold over an empty list yields `0`. -/
def maxQId (qs : List QDict) : Nat :=
  qs.foldl (fun m q => max m (q.qid.getD 0)) 0

/-- Step 3 of `regenerate_question_async` when a replacement was obtained
and the exam still exists: assign `max(ids) + 1` (1 on an empty exam),
append, broadcast. -/
def regen_append (e : ExamRec) (qt content : String) : ExamRec :=
  {e with questions :=
    e.questions ++ [⟨some (maxQId e.questions + 1), qt, content⟩]}

/-- Result of the `delete_question` endpoint: the updated exam and cache,
the kinds of the scheduled background regeneration tasks (one entry per
`background_tasks.add_task` call), and the `success` flag of the response. -/
structure DeleteResult where
  exam : ExamRec
  cache : QuestionCache
  scheduledKinds : List String
  success : Bool
deriving Repr

/-- `delete_question` endpoint on an existing exam: locate the item, drop
every item with that id from the exam, attempt the cache removal under the
deletion-path context key (built from `exam["prompt"]`,
`exam.get("files_hash", "") = ""`, `exam["temperature"]`, and
`exam.get("system_prompt", "") = ""`), compute the replacement kind — the
removed row kind if truthy, else the item dict `type` field, which every
exam item carries — and schedule exactly one background regeneration task
of that kind.  When no item matches, nothing is removed, the cache is
untouched, and the default kind `single_choice` is scheduled. -/
def delete_question (e : ExamRec) (cache : QuestionCache) (i : Nat) :
    DeleteResult :=
  match e.questions.find? (fun q => q.qid == some i) with
  | none =>
      ⟨{e with questions := e.questions.filter (fun q => !(q.qid == some i))},
        cache, ["single_choice"], true⟩
  | some qdel =>
      let key := delete_context_key e.examPrompt "" e.temperature ""
      let res := remove_question cache key qdel
      let kind :=
        match res.2 with
        | some t => if t = "" then qdel.qtype else t
        | none => qdel.qtype
      ⟨{e with questions := e.questions.filter (fun q => !(q.qid == some i))},
        res.1, [kind], true⟩

/-! ## Exam-item id assignment (claims about append / delete sequences) -/

/-- The three mutations of one exam's question list in the source:
`bulkAppend` is the append of `process_generated_question_async`
(`id = len(questions) + 1`), `regenAppend` the append of
`regenerate_question_async` (`id = max(ids) + 1`, 1 when empty), and
`deleteItem` the filter of `delete_question`. -/
inductive ExamOp where
  | bulkAppend (qt content : String)
  | regenAppend (qt content : String)
  | deleteItem (i : Nat)
deriving DecidableEq, Repr

def isDelete : ExamOp → Bool
  | .deleteItem _ => true
  | _ => false

def applyExamOp (qs : List QDict) : ExamOp → List QDict
  | .bulkAppend qt c => qs ++ [⟨some (qs.length + 1), qt, c⟩]
  | .regenAppend qt c => qs ++ [⟨some (maxQId qs + 1), qt, c⟩]
  | .deleteItem i => qs.filter (fun q => !(q.qid == some i))

/-- The local ids assigned by the appends of an operation sequence, in
order. -/
def assignedIds (qs : List QDict) : List ExamOp → List Nat
  | [] => []
  | .bulkAppend qt c :: ops =>
      (qs.length + 1) :: assignedIds (applyExamOp qs (.bulkAppend qt c)) ops
  | .regenAppend qt c :: ops =>
      (maxQId qs + 1) :: assignedIds (applyExamOp qs (.regenAppend qt c)) ops
  | .deleteItem i :: ops => assignedIds (applyExamOp qs (.deleteItem i)) ops

lemma cacheUnique_add (cache : QuestionCache) (ctx : String) (q : QDict)
    (qt : String) (h : CacheUnique cache) :
    CacheUnique (add_question cache ctx q qt) := by
  unfold add_question
  split
  · exact h
  · next hany =>
    unfold CacheUnique
    rw [List.pairwise_append]
    refine ⟨h, List.pairwise_singleton _ _, ?_⟩
    intro a ha b hb
    rcases List.mem_singleton.mp hb with rfl
    intro hcontra
    apply hany
    refine List.any_eq_true.mpr ⟨a, ha, ?_⟩
    simp [hcontra.1, hcontra.2]

lemma process_results_spec (key : String) (rs : List GenResult)
    (st : BGState) :
    (process_results key st rs).exam.questions.length
        = st.exam.questions.length + rs.length ∧
    (process_results key st rs).log.length = st.log.length + rs.length ∧
    (process_results key st rs).exam.status = st.exam.status ∧
    (CacheUnique st.cache → CacheUnique (process_results key st rs).cache) ∧
    ∃ l, (process_results key st rs).exam.questions
        = st.exam.questions ++ l := by
  induction rs generalizing st with
  | nil => exact ⟨rfl, rfl, rfl, fun h => h, [], by simp [process_results]⟩
  | cons r rs ih =>
    have hstep : process_results key st (r :: rs)
        = process_results key (process_result key st r) rs := rfl
    obtain ⟨h1, h2, h3, h4, l, h5⟩ := ih (process_result key st r)
    have hq : (process_result key st r).exam.questions
        = st.exam.questions ++ [⟨some (st.exam.questions.length + 1), r.kind, r.content⟩] := rfl
    have hlog : (process_result key st r).log
        = st.log ++ [⟨some (st.exam.questions.length + 1), r.kind, r.content⟩] := rfl
    refine ⟨?_, ?_, ?_, ?_, ?_⟩
    · rw [hstep, h1, hq]
      simp
      omega
    · rw [hstep, h2, hlog]
      simp
      omega
    · rw [hstep, h3]
      rfl
    · intro hu
      rw [hstep]
      exact h4 (cacheUnique_add _ _ _ _ hu)
    · refine ⟨[⟨some (st.exam.questions.length + 1), r.kind, r.content⟩] ++ l, ?_⟩
      rw [hstep, h5, hq, List.append_assoc]

/-- C1 counterexample: a run in which N = 2 candidates succeed and K = 2 of
them are content-identical appends and broadcasts both of them — the bulk
pipeline performs no dedup check before acceptance, so the claimed bound
N - K + 1 = 1 on accepted items is violated. -/
theorem claim_C1_counterexample :
    (process_results "k" ⟨⟨"p", "0.7", [], 2, "generating"⟩, [], []⟩
        [⟨"c", "single_choice"⟩, ⟨"c", "single_choice"⟩]).exam.questions.length
      = 2 ∧
    (process_results "k" ⟨⟨"p", "0.7", [], 2, "generating"⟩, [], []⟩
        [⟨"c", "single_choice"⟩, ⟨"c", "single_choice"⟩]).log.length = 2 ∧
    ¬(2 ≤ 2 - 2 + 1) := by
  refine ⟨by decide, by decide, by decide⟩

/-- C1 amended: in the bulk pipeline, deduplication applies only to the
content store — the cache keeps at most one row per (fingerprint, content
hash) pair — while every successful generation result is appended to the
ExamAggregate and broadcast unconditionally: N successes append and
broadcast exactly N items, even when K of them are content-identical. -/
theorem claim_C1_amended (key : String) (st : BGState)
    (rs : List GenResult) :
    (process_results key st rs).exam.questions.length
        = st.exam.questions.length + rs.length ∧
    (process_results key st rs).log.length = st.log.length + rs.length ∧
    (CacheUnique st.cache → CacheUnique (process_results key st rs).cache) := by
  obtain ⟨h1, h2, _, h4, _⟩ := process_results_spec key rs st
  exact ⟨h1, h2, h4⟩

/-- Witness for C1 amended at concrete inputs. -/
theorem claim_C1_amended_witness :
    (process_results "k" ⟨⟨"p", "0.7", [], 1, "generating"⟩, [], []⟩
        [⟨"c", "single_choice"⟩]).exam.questions.length = 0 + 1 ∧
    (process_results "k" ⟨⟨"p", "0.7", [], 1, "generating"⟩, [], []⟩
        [⟨"c", "single_choice"⟩]).log.length = 0 + 1 ∧
    CacheUnique (process_results "k" ⟨⟨"p", "0.7", [], 1, "generating"⟩, [], []⟩
        [⟨"c", "single_choice"⟩]).cache := by
  have h := claim_C1_amended "k" ⟨⟨"p", "0.7", [], 1, "generating"⟩, [], []⟩
    [⟨"c", "single_choice"⟩]
  exact ⟨h.1, h.2.1, h.2.2 (List.Pairwise.nil)⟩

/-- C3 counterexample: three bulk appends, deletion of id 2, then another
bulk append — the new item gets `id = len(questions) + 1 = 3`, an id that
was already assigned (and is still live), so assigned ids are neither
strictly increasing nor fresh after a delete. -/
theorem claim_C3_counterexample :
    assignedIds [] [ExamOp.bulkAppend "single_choice" "a",
      ExamOp.bulkAppend "single_choice" "b",
      ExamOp.bulkAppend "single_choice" "c",
      ExamOp.deleteItem 2,
      ExamOp.bulkAppend "single_choice" "d"] = [1, 2, 3, 3] ∧
    ¬ List.Pairwise (· < ·) ([1, 2, 3, 3] : List Nat) := by
  refine ⟨by decide, by decide⟩

lemma maxQId_append_one (qs : List QDict) (q : QDict) :
    maxQId (qs ++ [q]) = max (maxQId qs) (q.qid.getD 0) := by
  unfold maxQId
  rw [List.foldl_append]
  rfl

lemma assignedIds_no_delete (ops : List ExamOp) (qs : List QDict)
    (hnd : ∀ op ∈ ops, isDelete op = false)
    (hmax : maxQId qs = qs.length) :
    assignedIds qs ops = List.range' (qs.length + 1) ops.length := by
  induction ops generalizing qs with
  | nil => rfl
  | cons op ops ih =>
    cases op with
    | bulkAppend qt c =>
      have hlen : (applyExamOp qs (.bulkAppend qt c)).length
          = qs.length + 1 := by simp [applyExamOp]
      have hmax2 : maxQId (applyExamOp qs (.bulkAppend qt c))
          = (applyExamOp qs (.bulkAppend qt c)).length := by
        show maxQId (qs ++ [⟨some (qs.length + 1), qt, c⟩]) = _
        rw [maxQId_append_one, hmax, hlen]
        simp
      have hrec := ih (applyExamOp qs (.bulkAppend qt c))
        (fun op h => hnd op (List.mem_cons_of_mem _ h)) hmax2
      show (qs.length + 1) :: assignedIds (applyExamOp qs (.bulkAppend qt c)) ops
          = List.range' (qs.length + 1) (ops.length + 1)
      rw [List.range'_succ, hrec, hlen]
    | regenAppend qt c =>
      have hlen : (applyExamOp qs (.regenAppend qt c)).length
          = qs.length + 1 := by simp [applyExamOp]
      have hmax2 : maxQId (applyExamOp qs (.regenAppend qt c))
          = (applyExamOp qs (.regenAppend qt c)).length := by
        show maxQId (qs ++ [⟨some (maxQId qs + 1), qt, c⟩]) = _
        rw [maxQId_append_one, hmax, hlen]
        simp
      have hrec := ih (applyExamOp qs (.regenAppend qt c))
        (fun op h => hnd op (List.mem_cons_of_mem _ h)) hmax2
      show (maxQId qs + 1) :: assignedIds (applyExamOp qs (.regenAppend qt c)) ops
          = List.range' (qs.length + 1) (ops.length + 1)
      rw [List.range'_succ, hrec, hlen, hmax]
    | deleteItem i =>
      have := hnd (.deleteItem i) (List.mem_cons_self _ _)
      simp [isDelete] at this

/-- C3 amended: as long as no delete occurs, local ids are assigned as
1, 2, 3, …, strictly increasing and never reused (both append paths agree
there); the monotonicity breaks only once a delete has happened, as the
counterexample shows. -/
theorem claim_C3_amended (ops : List ExamOp)
    (hnd : ∀ op ∈ ops, isDelete op = false) :
    assignedIds [] ops = List.range' 1 ops.length ∧
    List.Pairwise (· < ·) (assignedIds [] ops) := by
  have h := assignedIds_no_delete ops [] hnd rfl
  have h1 : assignedIds [] ops = List.range' 1 ops.length := by
    simpa using h
  refine ⟨h1, ?_⟩
  rw [h1]
  have : ∀ (a n : Nat), List.Pairwise (· < ·) (List.range' a n) := by
    intro a n
    induction n generalizing a with
    | zero => exact List.Pairwise.nil
    | succ n ih =>
      rw [List.range'_succ]
      refine List.Pairwise.cons ?_ (ih (a + 1))
      intro b hb
      have := List.mem_range'_1.mp hb
      omega
  exact this 1 ops.length

/-- Witness for C3 amended at concrete inputs. -/
theorem claim_C3_amended_witness :
    assignedIds [] [ExamOp.bulkAppend "single_choice" "a",
      ExamOp.regenAppend "multi_choice" "b"] = List.range' 1 2 ∧
    List.Pairwise (· < ·) (assignedIds []
      [ExamOp.bulkAppend "single_choice" "a",
       ExamOp.regenAppend "multi_choice" "b"]) :=
  claim_C3_amended [ExamOp.bulkAppend "single_choice" "a",
    ExamOp.regenAppend "multi_choice" "b"] (by decide)

lemma hit_step_exam (s : HitState) (qt : String) :
    ∃ l, (hit_step s qt).exam.questions = s.exam.questions ++ l ∧
      (hit_step s qt).exam.status = s.exam.status := by
  unfold hit_step
  dsimp only
  split
  · exact ⟨[], by simp, rfl⟩
  · exact ⟨[_], rfl, rfl⟩

lemma hit_foldl_exam (selected : List String) (s : HitState) :
    ∃ l, (selected.foldl hit_step s).exam.questions
        = s.exam.questions ++ l ∧
      (selected.foldl hit_step s).exam.status = s.exam.status := by
  induction selected generalizing s with
  | nil => exact ⟨[], by simp, rfl⟩
  | cons qt rest ih =>
    obtain ⟨l1, hq1, hs1⟩ := hit_step_exam s qt
    obtain ⟨l2, hq2, hs2⟩ := ih (hit_step s qt)
    refine ⟨l1 ++ l2, ?_, ?_⟩
    · rw [List.foldl_cons, hq2, hq1, List.append_assoc]
    · rw [List.foldl_cons, hs2, hs1]

/-- C2 counterexample: a concrete run with target count 3 and a single
successful generation ends with 1 < 3 accepted items and the exam status
still `generating` — `generate_exam_background` performs no retry rounds
and never writes the status, so the status does remain `generating` after
the run ends, and is never set to `complete` or `degraded`. -/
theorem claim_C2_counterexample :
    (generate_exam_background (create_exam "p" "0.7" 3) [] "p" "" "" "0.7"
        global_style ["single_choice", "single_choice", "single_choice"] []
        [⟨"c", "single_choice"⟩]).exam.status = "generating" ∧
    (generate_exam_background (create_exam "p" "0.7" 3) [] "p" "" "" "0.7"
        global_style ["single_choice", "single_choice", "single_choice"] []
        [⟨"c", "single_choice"⟩]).exam.questions.length = 1 ∧
    (1 : Nat) < 3 ∧
    ("generating" : String) ≠ "complete" ∧
    ("generating" : String) ≠ "degraded" := by
  refine ⟨by decide, by decide, by decide, by decide, by decide⟩

/-- C2 amended: the background run makes a single pass — it appends one
item per cache hit and one per successful generation, performs no retry
round — and never updates the status field: whatever status the exam had
when the run started (the `generating` that `create_exam` stored) it still
has when the run ends; no `complete` or `degraded` status is ever
assigned. -/
theorem claim_C2_amended (e : ExamRec) (cache : QuestionCache)
    (user_prompt combined_context files_hash temperature style : String)
    (selected : List String) (rnds : List Nat)
    (successes : List GenResult) :
    (generate_exam_background e cache user_prompt combined_context
        files_hash temperature style selected rnds successes).exam.status
      = e.status ∧
    ∃ l, (generate_exam_background e cache user_prompt combined_context
        files_hash temperature style selected rnds successes).exam.questions
      = e.questions ++ l := by
  unfold generate_exam_background
  dsimp only
  obtain ⟨l1, hq1, hs1⟩ := hit_foldl_exam selected
    ⟨group_by_type ((get_questions cache (bulk_context_key user_prompt
        combined_context style files_hash temperature)).map Prod.fst),
      e, [], [], rnds⟩
  obtain ⟨-, -, hstat, -, l2, hq2⟩ := process_results_spec
    (bulk_context_key user_prompt combined_context style files_hash
      temperature) successes
    ⟨(selected.foldl hit_step ⟨group_by_type ((get_questions cache
        (bulk_context_key user_prompt combined_context style files_hash
          temperature)).map Prod.fst), e, [], [], rnds⟩).exam, cache,
      (selected.foldl hit_step ⟨group_by_type ((get_questions cache
        (bulk_context_key user_prompt combined_context style files_hash
          temperature)).map Prod.fst), e, [], [], rnds⟩).log⟩
  dsimp only at hstat hq2
  refine ⟨hstat.trans hs1, l1 ++ l2, ?_⟩
  rw [hq2, hq1, List.append_assoc]

/-- A removal whose context key matches no row leaves the table unchanged
and reports no removed type. -/
lemma remove_question_miss (cache : QuestionCache) (ctx : String)
    (q : QDict) (hmiss : ∀ r ∈ cache, r.1 ≠ ctx) :
    remove_question cache ctx q = (cache, none) := by
  have hfalse : ∀ r ∈ cache, (r.1 == ctx && r.2.1 == q) = false := by
    intro r hr
    have := hmiss r hr
    simp [this]
  have h1 : cache.filter (fun r => !(r.1 == ctx && r.2.1 == q)) = cache :=
    List.filter_eq_self.mpr (fun r hr => by rw [hfalse r hr]; rfl)
  have h2 : cache.find? (fun r => r.1 == ctx && r.2.1 == q) = none :=
    List.find?_eq_none.mpr (fun r hr => by simp [hfalse r hr])
  unfold remove_question
  rw [h1, h2]
  rfl

/-- C4 counterexample: on a concrete exam whose item was cached by the bulk
pipeline, the deletion path computes a different context key (underscore
format over `prompt`, the never-stored `files_hash = ""`, `temperature`,
and the never-stored `system_prompt = ""`) than the bulk pipeline did
(newline/`---` format including the style block), so the cached row is NOT
deleted — the cache after the delete still equals the cache before — and
the replacement kind comes from the fallback on the item dict, not from
the store. -/
theorem claim_C4_counterexample :
    bulk_context_key "p" "" global_style "" "0.7"
      ≠ delete_context_key "p" "" "0.7" "" ∧
    (delete_question ⟨"p", "0.7", [⟨some 1, "multi_choice", "c"⟩], 1,
        "generating"⟩
        (add_question [] (bulk_context_key "p" "" global_style "" "0.7")
          ⟨some 0, "multi_choice", "c"⟩ "multi_choice") 1).cache
      = add_question [] (bulk_context_key "p" "" global_style "" "0.7")
          ⟨some 0, "multi_choice", "c"⟩ "multi_choice" ∧
    (delete_question ⟨"p", "0.7", [⟨some 1, "multi_choice", "c"⟩], 1,
        "generating"⟩
        (add_question [] (bulk_context_key "p" "" global_style "" "0.7")
          ⟨some 0, "multi_choice", "c"⟩ "multi_choice") 1).scheduledKinds
      = ["multi_choice"] := by
  refine ⟨by decide, by decide, by decide⟩

/-- C4 amended: the deletion path calls the store removal under its own
differently-formatted context key; whenever the cache holds no row under
that key (in particular when its rows were written by the bulk pipeline
under the bulk key), the removal misses: the cache is unchanged, the
removal reports not-found, and the single scheduled replacement task gets
its kind K from the deleted item dict `type` field instead. -/
theorem claim_C4_amended (e : ExamRec) (cache : QuestionCache) (i : Nat)
    (q : QDict)
    (hfind : e.questions.find? (fun x => x.qid == some i) = some q)
    (hmiss : ∀ r ∈ cache,
      r.1 ≠ delete_context_key e.examPrompt "" e.temperature "") :
    (delete_question e cache i).cache = cache ∧
    (delete_question e cache i).scheduledKinds = [q.qtype] ∧
    (delete_question e cache i).exam.questions
      = e.questions.filter (fun x => !(x.qid == some i)) := by
  unfold delete_question
  rw [hfind]
  dsimp only
  rw [remove_question_miss cache _ q hmiss]
  exact ⟨rfl, rfl, rfl⟩

/-- Witness for C4 amended at concrete inputs. -/
theorem claim_C4_amended_witness :
    (delete_question ⟨"p", "0.7", [⟨some 1, "fill_in_blanks", "c"⟩], 1,
        "generating"⟩
        [("other", ⟨some 0, "fill_in_blanks", "c"⟩, "fill_in_blanks")]
        1).cache
      = [("other", ⟨some 0, "fill_in_blanks", "c"⟩, "fill_in_blanks")] ∧
    (delete_question ⟨"p", "0.7", [⟨some 1, "fill_in_blanks", "c"⟩], 1,
        "generating"⟩
        [("other", ⟨some 0, "fill_in_blanks", "c"⟩, "fill_in_blanks")]
        1).scheduledKinds = ["fill_in_blanks"] := by
  have h := claim_C4_amended
    ⟨"p", "0.7", [⟨some 1, "fill_in_blanks", "c"⟩], 1, "generating"⟩
    [("other", ⟨some 0, "fill_in_blanks", "c"⟩, "fill_in_blanks")] 1
    ⟨some 1, "fill_in_blanks", "c"⟩ (by decide) (by decide)
  exact ⟨h.1, h.2.1⟩

/-- C9: deleting a question id that matches no item of an existing exam
still returns success, removes nothing, touches no cache row, and
schedules exactly one background regeneration task of kind
`single_choice`; since a successful regeneration appends one item, such a
delete can grow the exam by one item. -/
theorem claim_C9_delete_nonexistent (e : ExamRec) (cache : QuestionCache)
    (i : Nat) (h : ∀ q ∈ e.questions, q.qid ≠ some i) :
    (delete_question e cache i).success = true ∧
    (delete_question e cache i).exam.questions = e.questions ∧
    (delete_question e cache i).cache = cache ∧
    (delete_question e cache i).scheduledKinds = ["single_choice"] ∧
    (∀ qt c, (regen_append e qt c).questions.length
        = e.questions.length + 1) := by
  have hfind : e.questions.find? (fun q => q.qid == some i) = none :=
    List.find?_eq_none.mpr (fun q hq => by simp [h q hq])
  have hfilter : e.questions.filter (fun q => !(q.qid == some i))
      = e.questions :=
    List.filter_eq_self.mpr (fun q hq => by simp [h q hq])
  unfold delete_question
  rw [hfind]
  exact ⟨rfl, by dsimp only; rw [hfilter], rfl, rfl,
    fun qt c => by simp [regen_append]⟩

/-- Witness for C9 at concrete inputs. -/
theorem claim_C9_delete_nonexistent_witness :
    (delete_question ⟨"p", "0.7", [⟨some 1, "multi_choice", "c"⟩], 1,
        "generating"⟩ [] 2).success = true ∧
    (delete_question ⟨"p", "0.7", [⟨some 1, "multi_choice", "c"⟩], 1,
        "generating"⟩ [] 2).exam.questions
      = [⟨some 1, "multi_choice", "c"⟩] ∧
    (delete_question ⟨"p", "0.7", [⟨some 1, "multi_choice", "c"⟩], 1,
        "generating"⟩ [] 2).scheduledKinds = ["single_choice"] ∧
    (regen_append ⟨"p", "0.7", [⟨some 1, "multi_choice", "c"⟩], 1,
        "generating"⟩ "single_choice" "x").questions.length = 1 + 1 := by
  have h := claim_C9_delete_nonexistent
    ⟨"p", "0.7", [⟨some 1, "multi_choice", "c"⟩], 1, "generating"⟩ [] 2
    (by decide)
  exact ⟨h.1, h.2.1, h.2.2.2.1, h.2.2.2.2 "single_choice" "x"⟩

/-! ## Question type selector
(src/server/app/services/question_type_selector.py and
src/server/app/generators/init) -/

/-- `SUBJECT_QUESTION_TYPES` from the generators package. -/
def SUBJECT_QUESTION_TYPES : List (String × List String) :=
  [("english", ["single_choice", "multi_choice", "fill_in_blanks",
      "image_single_choice", "audio_single_choice", "audio_multi_choice"]),
   ("math", ["single_choice", "multi_choice", "fill_in_blanks",
      "image_single_choice"]),
   ("cs", ["single_choice", "multi_choice", "fill_in_blanks",
      "image_single_choice"]),
   ("default", ["single_choice", "multi_choice", "fill_in_blanks",
      "image_single_choice", "image_multi_choice", "audio_single_choice",
      "audio_multi_choice", "image_fill_in_blanks", "audio_fill_in_blanks"])]

/-- `get_available_types`: lookup by the lower-cased subject, the
`default` row when absent. -/
def get_available_types (subject : String) : List String :=
  ((SUBJECT_QUESTION_TYPES.find? (fun p => p.1 == subject.toLower)).map
      Prod.snd).getD
    (((SUBJECT_QUESTION_TYPES.find? (fun p => p.1 == "default")).map
      Prod.snd).getD [])

/-- Indexing `["single_choice", "multi_choice", "fill_in_blanks"]` at
`i % len(...)` — `diverse_types[i % len(diverse_types)]`. -/
def diverse_pick (i : Nat) : String :=
  match i % 3 with
  | 0 => "single_choice"
  | 1 => "multi_choice"
  | _ => "fill_in_blanks"

/-- The deterministic round-robin over the fixed default kinds. -/
def round_robin (n : Nat) : List String := (List.range n).map diverse_pick

/-- Validation loop of `select_question_types`: kinds outside the allowed
list are replaced by `single_choice`. -/
def validate_types (types available : List String) : List String :=
  types.map (fun t => if available.contains t then t else "single_choice")

/-- The `while len < question_count: append "single_choice"` padding
followed by the `[:question_count]` truncation. -/
def pad_truncate (l : List String) (n : Nat) : List String :=
  (l ++ List.replicate (n - l.length) "single_choice").take n

/-- The diversity override: when all validated kinds are identical
(`len(set(validated_types)) == 1`, set size modelled by `dedup`) and
`question_count >= 3`, replace the whole list with the round-robin over
the default kinds. -/
def enforce_diversity (l : List String) (n : Nat) : List String :=
  if 3 ≤ n ∧ l.dedup.length = 1 then round_robin n else l

/-- `select_question_types` after the LLM reply parsed to `types`. -/
def select_question_types_post (types : List String) (n : Nat)
    (subject : String) : List String :=
  enforce_diversity
    (pad_truncate (validate_types types (get_available_types subject)) n) n

/-- The `except` branch of `select_question_types`: the diverse fallback
list comprehension. -/
def select_question_types_fallback (n : Nat) : List String :=
  (List.range n).map diverse_pick

lemma dedup_of_all_eq (l : List String) (t : String) (hne : l ≠ [])
    (h : ∀ x ∈ l, x = t) : l.dedup = [t] := by
  induction l with
  | nil => exact absurd rfl hne
  | cons x xs ih =>
    have hx : x = t := h x (List.mem_cons_self _ _)
    by_cases hxs : xs = []
    · subst hxs
      subst hx
      rfl
    · have hd := ih hxs (fun y hy => h y (List.mem_cons_of_mem _ hy))
      have hmem : x ∈ xs := by
        cases xs with
        | nil => exact absurd rfl hxs
        | cons y ys =>
          have hy : y = t := h y (by simp)
          rw [hx, ← hy]
          exact List.mem_cons_self _ _
      rw [List.dedup_cons_of_mem hmem, hd]

/-- C7: for `question_count ≥ 3`, a validated output that is one repeated
kind is replaced by the deterministic round-robin over the fixed default
kinds; a failed selector call also yields exactly that round-robin; and
for `targetCount = 5` with a selector returning five copies of any one
kind, the realized sequence contains at least 2 distinct kinds. -/
theorem claim_C7_diversity_enforcement :
    (∀ (n : Nat), 3 ≤ n → ∀ (v : List String) (t : String),
      v.length = n → (∀ x ∈ v, x = t) →
      enforce_diversity v n = round_robin n) ∧
    (∀ n, select_question_types_fallback n = round_robin n) ∧
    (∀ A : String, 2 ≤ (select_question_types_post (List.replicate 5 A) 5
        "default").dedup.length) := by
  refine ⟨?_, fun n => rfl, ?_⟩
  · intro n hn v t hlen hall
    have hne : v ≠ [] := by
      intro hv
      rw [hv] at hlen
      simp at hlen
      omega
    unfold enforce_diversity
    rw [if_pos ⟨hn, by rw [dedup_of_all_eq v t hne hall]; rfl⟩]
  · intro A
    unfold select_question_types_post
    rw [show validate_types (List.replicate 5 A)
        (get_available_types "default")
        = List.replicate 5 (if (get_available_types "default").contains A
            then A else "single_choice") from by
      unfold validate_types
      rw [List.map_replicate]]
    generalize (if (get_available_types "default").contains A
        then A else "single_choice") = B
    rw [show pad_truncate (List.replicate 5 B) 5 = List.replicate 5 B from
      by simp [pad_truncate]]
    rw [show enforce_diversity (List.replicate 5 B) 5 = round_robin 5 from by
      unfold enforce_diversity
      rw [if_pos ⟨by omega, by
        rw [dedup_of_all_eq (List.replicate 5 B) B (by simp)
          (fun x hx => List.eq_of_mem_replicate hx)]
        rfl⟩]]
    decide

/-- Witness for C7 at concrete inputs. -/
theorem claim_C7_diversity_enforcement_witness :
    enforce_diversity ["multi_choice", "multi_choice", "multi_choice"] 3
      = round_robin 3 ∧
    select_question_types_fallback 4 = round_robin 4 ∧
    2 ≤ (select_question_types_post (List.replicate 5 "fill_in_blanks") 5
        "default").dedup.length :=
  ⟨claim_C7_diversity_enforcement.1 3 (by decide)
      ["multi_choice", "multi_choice", "multi_choice"] "multi_choice"
      (by decide) (by decide),
    claim_C7_diversity_enforcement.2.1 4,
    claim_C7_diversity_enforcement.2.2 "fill_in_blanks"⟩

end VTutor
